import Mathlib

/-!
Verification development for the parallel batch-conversion engine of the
ZlidarToLas tool (src/src/tools/lidar_analysis/zlidar_to_las.rs).

The Rust code is shallowly embedded: Rust string operations are modelled on
the underlying character lists, the external LiDAR codec (LasFile) is an
opaque environment, the mutex-guarded work queue is the state-passing
function claim_next, and the worker loop body is the function workerStep.
The platform path separator MAIN_SEPARATOR is modelled as "/" (Unix).
-/

namespace ZlidarToLas

/-- Decidable equality for Except values, used to evaluate the embedding
at concrete inputs. -/
instance {ε α : Type} [DecidableEq ε] [DecidableEq α] : DecidableEq (Except ε α)
  | .error a, .error b =>
    if h : a = b then .isTrue (by rw [h]) else .isFalse (fun hc => h (Except.error.inj hc))
  | .error _, .ok _ => .isFalse (fun hc => Except.noConfusion hc)
  | .ok _, .error _ => .isFalse (fun hc => Except.noConfusion hc)
  | .ok a, .ok b =>
    if h : a = b then .isTrue (by rw [h]) else .isFalse (fun hc => h (Except.ok.inj hc))

/-! ### Rust string primitives, modelled on character lists -/

/-- Substring containment on character lists: pat occurs contiguously in s.
Models Rust str::contains with a string pattern. -/
def listContainsSub (pat : List Char) : List Char → Bool
  | [] => pat.isPrefixOf []
  | c :: rest => pat.isPrefixOf (c :: rest) || listContainsSub pat rest

/-- Rust str::contains (substring test). -/
def strContains (s pat : String) : Bool :=
  listContainsSub pat.data s.data

/-- Worker for rustReplace: replaces non-overlapping occurrences of pat by
rep, left to right, with explicit fuel (the length of the subject suffices
for nonempty patterns). Models Rust str::replace. -/
def replaceAuxL (pat rep : List Char) : Nat → List Char → List Char
  | 0, s => s
  | _ + 1, [] => []
  | fuel + 1, c :: rest =>
    if pat.isPrefixOf (c :: rest) ∧ pat ≠ [] then
      rep ++ replaceAuxL pat rep fuel ((c :: rest).drop pat.length)
    else
      c :: replaceAuxL pat rep fuel rest

/-- Rust str::replace: every non-overlapping occurrence of pat replaced by
rep, scanning left to right. -/
def rustReplace (s pat rep : String) : String :=
  ⟨replaceAuxL pat.data rep.data s.data.length s.data⟩

/-- Worker for rustSplit, with fuel. Accumulates the current token in acc
(reversed). Models Rust str::split with a string delimiter. -/
def splitAuxL (delim : List Char) : Nat → List Char → List Char → List (List Char)
  | 0, _, acc => [acc.reverse]
  | _ + 1, [], acc => [acc.reverse]
  | fuel + 1, c :: rest, acc =>
    if delim.isPrefixOf (c :: rest) ∧ delim ≠ [] then
      acc.reverse :: splitAuxL delim fuel ((c :: rest).drop delim.length) []
    else
      splitAuxL delim fuel rest (c :: acc)

/-- Rust str::split collected to a vector: splitting "" yields [""], and a
delimiter occurrence at either end yields an empty token there. -/
def rustSplit (s delim : String) : List String :=
  (splitAuxL delim.data s.data.length s.data []).map (fun l => ⟨l⟩)

/-- Rust str::trim (whitespace stripped from both ends). -/
def rustTrim (s : String) : String :=
  ⟨((s.data.dropWhile Char.isWhitespace).reverse.dropWhile Char.isWhitespace).reverse⟩

/-- Rust str::to_lowercase, restricted to the per-character lowering that
the ASCII extensions and flags in this tool exercise. -/
def toLowerStr (s : String) : String :=
  ⟨s.data.map Char.toLower⟩

/-- Rust str::ends_with. -/
def strEndsWith (s pat : String) : Bool :=
  pat.data.reverse.isPrefixOf s.data.reverse

example : rustReplace "a--b--c" "--" "-" = "a-b-c" := by decide
example : rustSplit "a;b;;c" ";" = ["a", "b", "", "c"] := by decide
example : rustSplit "" ";" = [""] := by decide
example : rustTrim "  a b " = "a b" := by decide
example : strContains "abcd" "bc" = true := by decide
example : strContains "abcd" "bd" = false := by decide
example : toLowerStr "ZLiDAR" = "zlidar" := by decide
example : strEndsWith "a/b/" "/" = true := by decide

/-! ### Paths and file extensions -/

/-- The platform path separator (std::path::MAIN_SEPARATOR), modelled as
the Unix separator. -/
def MAIN_SEPARATOR : String := "/"

/-- The final path component, as Rust Path::file_name: the portion after
the last separator, with trailing separators ignored; none for an empty
path. (The ".." special case of Path::file_name is not exercised here.) -/
def lastComponent (p : String) : Option String :=
  ((rustSplit p MAIN_SEPARATOR).filter (fun c => c ≠ "")).getLast?

/-- Rust Path::extension on a file name: the portion after the last dot,
none when there is no dot or when the only dot is the leading character. -/
def extensionOfName (name : String) : Option String :=
  let parts := rustSplit name "."
  if parts.length ≤ 1 then none
  else if parts.headD "" = "" ∧ parts.length = 2 then none
  else parts.getLast?

/-- Rust Path::extension composed with Path::file_name, as used by
get_file_extension (zlidar_to_las.rs lines 363-368). -/
def pathExtension (p : String) : Option String :=
  match lastComponent p with
  | none => none
  | some name => extensionOfName name

/-- get_file_extension (zlidar_to_las.rs lines 363-368). The source
unwraps Path::extension, so a none result is a panic of the whole
process; the none case is surfaced here and turned into an abort by the
caller workerStep. -/
def get_file_extension (file_name : String) : Option String :=
  pathExtension file_name

example : get_file_extension "/d/a.zlidar" = some "zlidar" := by decide
example : get_file_extension "noext" = none := by decide
example : get_file_extension "/d/sub.dir/noext" = none := by decide
example : get_file_extension ".bashrc" = none := by decide
example : get_file_extension "a.zlidar.zlidar" = some "zlidar" := by decide

/-! ### The engine's data model -/

/-- The part of the external LasFile handle the engine observes: the short
file name (get_short_filename) and the header point count. -/
structure LasFileH where
  shortName : String
  numPoints : Nat
deriving DecidableEq

/-- The external collaborators of one run: LasFile::new opening a path
read-only (none models the Err branch), and LasFile::write on the target
path (some e models the Err branch with diagnostic e, none models Ok). -/
structure Env where
  openFile : String → Option LasFileH
  write : String → Option String

/-- A process-level abort (Rust panic) raised inside a worker. -/
inductive Abort where
  /-- LasFile::new failed: panic "Error reading file: {path}" (line 215). -/
  | openFailure (path : String)
  /-- get_file_extension unwrapped none (line 365). -/
  | extUnwrap (path : String)
  /-- Extension check failed: panic "All input files should be of zlidar
  format." (line 222). -/
  | badExtension
deriving DecidableEq

/-- What one claimed index produces when the worker does not abort: the
string sent on the channel, the target path written (none when the input
was blank), and the console lines logged by the worker. -/
structure StepResult where
  message : String
  target : Option String
  log : List String
deriving DecidableEq

/-- The channel message for a blank input token (line 253). -/
def emptyMsg (k : Nat) : String :=
  "Empty file name for tile " ++ Nat.repr k ++ "."

/-- Path resolution (lines 208-210): a stored path containing no
separator is joined onto the run's working directory. -/
def resolvePath (wd p : String) : String :=
  if strContains p MAIN_SEPARATOR = false ∧ strContains p "/" = false then
    wd ++ p
  else p

/-- Quote stripping applied to the stored input path (line 206). -/
def strippedInput (raw : String) : String :=
  rustReplace raw "\"" ""

/-- Trailing-separator normalization of the output directory
(lines 171-173). -/
def normalizeOutdir (outdir : String) : String :=
  if outdir ≠ "" ∧ strEndsWith outdir MAIN_SEPARATOR = false then
    outdir ++ MAIN_SEPARATOR
  else outdir

/-- Target path construction (lines 225-229): with an output directory it
is outdir ++ short name ++ ".las", otherwise str::replace of "." ++ ext by
".las" over the whole source path. -/
def outputPath (outdir input_file file_extension short_filename : String) : String :=
  if outdir = "" then
    rustReplace input_file ("." ++ file_extension) ".las"
  else
    outdir ++ short_filename ++ ".las"

/-- One iteration of the worker loop body for claimed index k
(lines 206-254). The outdir argument is the already-normalized output
directory the spawned workers share. -/
def workerStep (env : Env) (wd outdir raw : String) (k : Nat) : Except Abort StepResult :=
  if strippedInput raw = "" then
    .ok ⟨emptyMsg k, none, []⟩
  else
    match env.openFile (resolvePath wd (strippedInput raw)) with
    | none => .error (.openFailure (resolvePath wd (strippedInput raw)))
    | some input =>
      match get_file_extension (resolvePath wd (strippedInput raw)) with
      | none => .error (.extUnwrap (resolvePath wd (strippedInput raw)))
      | some fileExtension =>
        if toLowerStr fileExtension ≠ "zlidar" then .error .badExtension
        else
          match env.write (outputPath outdir (resolvePath wd (strippedInput raw)) fileExtension input.shortName) with
          | some e =>
            .ok ⟨input.shortName,
                 some (outputPath outdir (resolvePath wd (strippedInput raw)) fileExtension input.shortName),
                 ["error while writing: " ++ e]⟩
          | none =>
            .ok ⟨input.shortName,
                 some (outputPath outdir (resolvePath wd (strippedInput raw)) fileExtension input.shortName),
                 []⟩

/-- The batch, sequentialized in mutex-claim order: index k is the claimed
position of the head input. A worker panic (Except.error) aborts the whole
run, producing no message list at all. -/
def runWorkers (env : Env) (wd outdir : String) : List String → Nat → Except Abort (List StepResult)
  | [], _ => .ok []
  | raw :: rest, k =>
    match workerStep env wd outdir raw k with
    | .error a => .error a
    | .ok r =>
      match runWorkers env wd outdir rest (k + 1) with
      | .error a => .error a
      | .ok rs => .ok (r :: rs)

/-- The whole batch from claimed index 0. -/
def runBatch (env : Env) (wd outdir : String) (inputs : List String) : Except Abort (List StepResult) :=
  runWorkers env wd outdir inputs 0

/-! ### The work queue (Mutex over a Range iterator, lines 186 and 201) -/

/-- Range::next under the mutex: hands out the cursor and advances it while
the cursor is below the bound n, and returns none once exhausted. -/
def claim_next (c n : Nat) : Option Nat × Nat :=
  if c < n then (some c, c + 1) else (none, c)

/-- The successful claims produced by m consecutive (mutex-linearized)
calls of claim_next starting from cursor c with bound n. -/
def claimMany : Nat → Nat → Nat → List Nat
  | 0, _, _ => []
  | m + 1, c, n =>
    match claim_next c n with
    | (some k, c2) => k :: claimMany m c2 n
    | (none, c2) => claimMany m c2 n

/-! ### The Aggregator (lines 259-275) -/

/-- The status line the aggregator prints for one received channel message
(lines 263-267): the string message is tested for the substring "Empty"
and the batch size for being greater than one. -/
def aggregatorLine (num_files : Nat) (file_nm : String) : String :=
  if strContains file_nm "Empty" = false ∧ 1 < num_files then
    "Completed conversion of " ++ file_nm
  else file_nm

/-- The aggregator drain loop: exactly num_files receives from the channel
stream, each printed through aggregatorLine. -/
def aggregatorDrain (num_files : Nat) (msgs : List String) : List String :=
  (msgs.take num_files).map (aggregatorLine num_files)

/-! ### Progress-formula evaluation traces

The two progress computations divide in f64 and cast the quotient to
usize, so a zero denominator yields inf or NaN rather than a trap; what
matters to the spec is whether the ratio is computed at all. These
definitions record the integer (numerator, denominator) pairs whose f64
quotient the code evaluates. -/

/-- The (p + 1, n_points - 1) pairs the worker's per-record progress
computation evaluates (lines 234-244): one per record, whenever verbose
reporting is on and the batch has exactly one file. There is no special
case for n_points = 1. -/
def workerProgressPairs (verbose : Bool) (num_files n_points : Nat) : List (Nat × Nat) :=
  if verbose = true ∧ num_files = 1 then
    (List.range n_points).map (fun p => (p + 1, n_points - 1))
  else []

/-- The (tile, num_files - 1) pairs the aggregator's per-outcome progress
computation evaluates (lines 268-274): one per received outcome, whenever
verbose reporting is on. There is no special case for num_files = 1. -/
def aggregatorProgressPairs (verbose : Bool) (num_files : Nat) : List (Nat × Nat) :=
  if verbose = true then
    (List.range num_files).map (fun tile => (tile, num_files - 1))
  else []

/-! ### Argument parsing (lines 126-159) and input splitting (lines 175-182) -/

/-- The errors run's argument handling can produce: the structured
InvalidInput error returned for an empty argument vector (lines 130-135),
and the index-out-of-bounds panic of args[i + 1] when a recognized flag
without an equals sign is the final argument. -/
inductive RunError where
  | invalidInput
  | indexOutOfBounds
deriving DecidableEq

/-- The apostrophe character stripped from arguments (line 138). -/
def apostrophe : String := ⟨[Char.ofNat 39]⟩

/-- The args[i + 1] lookup of a flag given without an equals sign: out of
bounds is the index panic of the source's args[i + 1]. -/
def argOrPanic (o : Option String) (f : String → String × String) : Except RunError (String × String) :=
  match o with
  | some v => .ok (f v)
  | none => .error .indexOutOfBounds

/-- Processing of one argument index i of the parse loop body
(lines 136-159), threading the (input_files, output_directory) pair. -/
def procIndex (args : List String) (i : Nat) (inp outd : String) : Except RunError (String × String) :=
  let arg := rustReplace (rustReplace (args.getD i "") "\"" "") apostrophe ""
  let vec := rustSplit arg "="
  let keyval := 1 < vec.length
  let flag_val := rustReplace (toLowerStr (vec.headD "")) "--" "-"
  if flag_val = "-i" ∨ flag_val = "-inputs" ∨ flag_val = "-input" then
    if keyval then .ok (vec.getD 1 "", outd)
    else argOrPanic (args.get? (i + 1)) (fun v => (v, outd))
  else if flag_val = "-outdir" then
    if keyval then .ok (inp, vec.getD 1 "")
    else argOrPanic (args.get? (i + 1)) (fun v => (inp, v))
  else .ok (inp, outd)

/-- The parse loop over the listed indices (for i in 0..args.len()). -/
def parseArgsLoop (args : List String) : List Nat → String → String → Except RunError (String × String)
  | [], inp, outd => .ok (inp, outd)
  | i :: is, inp, outd =>
    match procIndex args i inp outd with
    | .error e => .error e
    | .ok (inp2, outd2) => parseArgsLoop args is inp2 outd2

/-- Argument handling of run (lines 126-159): an empty argument vector is
rejected with InvalidInput before anything else; otherwise the loop scans
every index, returning the final (input_files, output_directory) pair. -/
def parseArgs (args : List String) : Except RunError (String × String) :=
  if args.length = 0 then .error .invalidInput
  else parseArgsLoop args (List.range args.length) "" ""

/-- Input-list splitting (lines 175-182): split on ";" and trim each
token; when that yields a single token, split on "," and trim instead. -/
def splitInputsList (s : String) : List String :=
  let v := (rustSplit s ";").map rustTrim
  if v.length = 1 then (rustSplit s ",").map rustTrim else v

example : parseArgs [] = .error .invalidInput := by decide
example : parseArgs ["-v"] = .ok ("", "") := by decide
example : parseArgs ["-i=a.zlidar", "--outdir=/o"] = .ok ("a.zlidar", "/o") := by decide
example : parseArgs ["--inputs", "a;b"] = .ok ("a;b", "") := by decide
example : parseArgs ["-i"] = .error .indexOutOfBounds := by decide
example : splitInputsList "a.zlidar,b.zlidar" = ["a.zlidar", "b.zlidar"] := by decide
example : splitInputsList "" = [""] := by decide

/-! ### Helper lemmas about the worker and the queue -/

theorem workerStep_blank (env : Env) (wd outdir raw : String) (k : Nat)
    (h : strippedInput raw = "") :
    workerStep env wd outdir raw k = .ok ⟨emptyMsg k, none, []⟩ := by
  unfold workerStep
  rw [if_pos h]

theorem workerStep_open_none (env : Env) (wd outdir raw : String) (k : Nat)
    (h1 : strippedInput raw ≠ "")
    (h2 : env.openFile (resolvePath wd (strippedInput raw)) = none) :
    workerStep env wd outdir raw k =
      .error (.openFailure (resolvePath wd (strippedInput raw))) := by
  unfold workerStep
  rw [if_neg h1, h2]

theorem workerStep_ext_none (env : Env) (wd outdir raw : String) (k : Nat) (lf : LasFileH)
    (h1 : strippedInput raw ≠ "")
    (h2 : env.openFile (resolvePath wd (strippedInput raw)) = some lf)
    (h3 : get_file_extension (resolvePath wd (strippedInput raw)) = none) :
    workerStep env wd outdir raw k =
      .error (.extUnwrap (resolvePath wd (strippedInput raw))) := by
  unfold workerStep
  rw [if_neg h1, h2, h3]

theorem workerStep_ext_mismatch (env : Env) (wd outdir raw : String) (k : Nat)
    (lf : LasFileH) (fext : String)
    (h1 : strippedInput raw ≠ "")
    (h2 : env.openFile (resolvePath wd (strippedInput raw)) = some lf)
    (h3 : get_file_extension (resolvePath wd (strippedInput raw)) = some fext)
    (h4 : toLowerStr fext ≠ "zlidar") :
    workerStep env wd outdir raw k = .error .badExtension := by
  unfold workerStep
  rw [if_neg h1, h2, h3]
  simp [h4]

theorem workerStep_write_failure (env : Env) (wd outdir raw : String) (k : Nat)
    (lf : LasFileH) (fext e : String)
    (h1 : strippedInput raw ≠ "")
    (h2 : env.openFile (resolvePath wd (strippedInput raw)) = some lf)
    (h3 : get_file_extension (resolvePath wd (strippedInput raw)) = some fext)
    (h4 : toLowerStr fext = "zlidar")
    (h5 : env.write (outputPath outdir (resolvePath wd (strippedInput raw)) fext lf.shortName) = some e) :
    workerStep env wd outdir raw k =
      .ok ⟨lf.shortName,
           some (outputPath outdir (resolvePath wd (strippedInput raw)) fext lf.shortName),
           ["error while writing: " ++ e]⟩ := by
  unfold workerStep
  rw [if_neg h1, h2, h3]
  simp [h4, h5]

theorem runWorkers_length (env : Env) (wd outdir : String) :
    ∀ (l : List String) (k : Nat) (rs : List StepResult),
    runWorkers env wd outdir l k = .ok rs → rs.length = l.length := by
  intro l
  induction l with
  | nil =>
    intro k rs h
    simp only [runWorkers] at h
    cases h
    rfl
  | cons raw rest ih =>
    intro k rs h
    simp only [runWorkers] at h
    cases hs : workerStep env wd outdir raw k with
    | error a => rw [hs] at h; cases h
    | ok r =>
      rw [hs] at h
      cases hr : runWorkers env wd outdir rest (k + 1) with
      | error a => rw [hr] at h; cases h
      | ok rs2 =>
        rw [hr] at h
        cases h
        simp [ih (k + 1) rs2 hr]

theorem runWorkers_append_ok (env : Env) (wd outdir : String) :
    ∀ (pre rest : List String) (k : Nat) (pm : List StepResult),
    runWorkers env wd outdir pre k = .ok pm →
    runWorkers env wd outdir (pre ++ rest) k =
      (runWorkers env wd outdir rest (k + pre.length)).map (fun rs => pm ++ rs) := by
  intro pre
  induction pre with
  | nil =>
    intro rest k pm h
    simp only [runWorkers] at h
    cases h
    simp only [List.nil_append, List.length_nil, Nat.add_zero]
    cases hr : runWorkers env wd outdir rest k <;> simp [Except.map, hr]
  | cons raw pres ih =>
    intro rest k pm h
    simp only [runWorkers] at h
    cases hs : workerStep env wd outdir raw k with
    | error a => rw [hs] at h; cases h
    | ok r =>
      rw [hs] at h
      cases hr : runWorkers env wd outdir pres (k + 1) with
      | error a => rw [hr] at h; cases h
      | ok pm2 =>
        rw [hr] at h
        cases h
        have hrec := ih rest (k + 1) pm2 hr
        have hidx : k + 1 + pres.length = k + (pres.length + 1) := by omega
        rw [hidx] at hrec
        simp only [List.cons_append, runWorkers, hs, List.length_cons, List.append_eq]
        rw [hrec]
        cases hrr : runWorkers env wd outdir rest (k + (pres.length + 1)) with
        | error a => simp [Except.map]
        | ok rs => simp [Except.map]

theorem isPrefixOf_append_left (p a b : List Char) (h : p.isPrefixOf a = true) :
    p.isPrefixOf (a ++ b) = true := by
  rw [List.isPrefixOf_iff_prefix] at h ⊢
  exact h.trans (List.prefix_append a b)

theorem listContainsSub_of_isPrefixOf (pat s : List Char) (h : pat.isPrefixOf s = true) :
    listContainsSub pat s = true := by
  cases s with
  | nil => simpa [listContainsSub] using h
  | cons c rest => simp [listContainsSub, h]

theorem strContains_emptyMsg (k : Nat) : strContains (emptyMsg k) "Empty" = true := by
  unfold strContains emptyMsg
  rw [String.data_append, String.data_append]
  apply listContainsSub_of_isPrefixOf
  apply isPrefixOf_append_left
  apply isPrefixOf_append_left
  decide

theorem argOrPanic_ne_invalid (o : Option String) (f : String → String × String) :
    argOrPanic o f ≠ .error .invalidInput := by
  cases o <;> simp [argOrPanic]

theorem procIndex_ne_invalid (args : List String) (i : Nat) (inp outd : String) :
    procIndex args i inp outd ≠ .error .invalidInput := by
  unfold procIndex
  dsimp only
  split
  · split
    · simp
    · exact argOrPanic_ne_invalid _ _
  · split
    · split
      · simp
      · exact argOrPanic_ne_invalid _ _
    · simp

theorem parseArgsLoop_ne_invalid (args : List String) :
    ∀ (idxs : List Nat) (inp outd : String),
    parseArgsLoop args idxs inp outd ≠ .error .invalidInput := by
  intro idxs
  induction idxs with
  | nil =>
    intro inp outd h
    simp [parseArgsLoop] at h
  | cons i rest ih =>
    intro inp outd h
    simp only [parseArgsLoop] at h
    cases hp : procIndex args i inp outd with
    | error e =>
      rw [hp] at h
      simp at h
      exact procIndex_ne_invalid args i inp outd (by rw [hp, h])
    | ok p =>
      rw [hp] at h
      cases p with
      | mk a b => exact ih a b h

theorem claimMany_eq : ∀ (m c n : Nat),
    claimMany m c n = List.range' c (min m (n - c)) := by
  intro m
  induction m with
  | zero => intro c n; simp [claimMany]
  | succ m ih =>
    intro c n
    by_cases h : c < n
    · have : claim_next c n = (some c, c + 1) := by simp [claim_next, h]
      simp only [claimMany, this]
      rw [ih (c + 1) n]
      have hmin : min (m + 1) (n - c) = (min m (n - (c + 1))) + 1 := by omega
      rw [hmin, List.range'_succ]
    · have : claim_next c n = (none, c) := by simp [claim_next, h]
      simp only [claimMany, this]
      rw [ih c n]
      have h0 : n - c = 0 := by omega
      simp [h0]

/-! ### Concrete environments for witnesses and counterexamples -/

/-- An environment in which every open fails and every write succeeds. -/
def envNone : Env := ⟨fun _ => none, fun _ => none⟩

/-- An environment holding two healthy zlidar files under /d/. -/
def envTwo : Env :=
  ⟨fun p =>
    if p = "/d/a.zlidar" then some ⟨"a", 5⟩
    else if p = "/d/b.zlidar" then some ⟨"b", 3⟩
    else none,
   fun _ => none⟩

/-- An environment holding one readable file whose extension is txt. -/
def envTxt : Env :=
  ⟨fun p => if p = "/d/a.txt" then some ⟨"a", 1⟩ else none, fun _ => none⟩

/-! ### The claims -/

/-- C1: for every batch, with N the length of the split input list, every
index in [0, N) is claimed by exactly one worker exactly once (the
mutex-linearized claim sequence over any number m ≥ N of claim_next calls
is exactly the duplicate-free list [0, ..., N-1]), each claimed index
produces exactly one outcome message, and the aggregator drain receives
exactly N outcomes before the run completes. -/
theorem batch_claims_and_outcomes (env : Env) (wd outdir : String)
    (inputs : List String) (results : List StepResult) (m : Nat)
    (hm : inputs.length ≤ m)
    (hrun : runBatch env wd outdir inputs = .ok results) :
    claimMany m 0 inputs.length = List.range inputs.length
    ∧ (claimMany m 0 inputs.length).Nodup
    ∧ (∀ i, i ∈ claimMany m 0 inputs.length ↔ i < inputs.length)
    ∧ results.length = inputs.length
    ∧ (aggregatorDrain inputs.length (results.map (fun r => r.message))).length
        = inputs.length := by
  have hclaim : claimMany m 0 inputs.length = List.range inputs.length := by
    rw [claimMany_eq]
    have hmin : min m (inputs.length - 0) = inputs.length := by omega
    rw [hmin, List.range_eq_range']
  have hlen : results.length = inputs.length :=
    runWorkers_length env wd outdir inputs 0 results hrun
  refine ⟨hclaim, ?_, ?_, hlen, ?_⟩
  · rw [hclaim]
    exact List.nodup_range _
  · intro i
    rw [hclaim]
    exact List.mem_range
  · unfold aggregatorDrain
    rw [List.length_map, List.length_take, List.length_map, hlen]
    omega

/-- Witness for C1 at a concrete two-file batch. -/
theorem batch_claims_and_outcomes_witness :
    claimMany 2 0 2 = List.range 2
    ∧ (claimMany 2 0 2).Nodup
    ∧ (∀ i, i ∈ claimMany 2 0 2 ↔ i < 2)
    ∧ ([⟨"a", some "/d/a.las", []⟩, ⟨"b", some "/d/b.las", []⟩] : List StepResult).length = 2
    ∧ (aggregatorDrain 2
        (([⟨"a", some "/d/a.las", []⟩, ⟨"b", some "/d/b.las", []⟩] : List StepResult).map
          (fun r => r.message))).length = 2 :=
  batch_claims_and_outcomes envTwo "/d/" "" ["a.zlidar", "b.zlidar"]
    [⟨"a", some "/d/a.las", []⟩, ⟨"b", some "/d/b.las", []⟩] 2 (by decide) (by decide)

/-- C2: contrary to the claim, a verbose single-file batch whose file has
exactly one point record does evaluate both progress formulas with a zero
denominator; neither the worker loop (lines 234-244) nor the aggregator
loop (lines 268-274) special-cases the denominator. The f64 division does
not trap, but the ratio is computed rather than completion being reported
directly. -/
theorem singleFileProgressZeroDenominator :
    workerProgressPairs true 1 1 = [(1, 0)]
    ∧ aggregatorProgressPairs true 1 = [(0, 0)]
    ∧ (1, 0) ∈ workerProgressPairs true 1 1
    ∧ (0, 0) ∈ aggregatorProgressPairs true 1 := by
  refine ⟨by decide, by decide, by decide, by decide⟩

/-- C3: for a claimed non-blank input path, an open failure or a source
extension that does not case-insensitively equal zlidar aborts the entire
run: the batch result is a process-level abort, no outcome list is
produced, and the remaining files are not processed. -/
theorem fatalOpenOrExtensionAbortsRun (env : Env) (wd outdir raw : String)
    (pre post : List String) (pm : List StepResult)
    (hpre : runWorkers env wd outdir pre 0 = .ok pm)
    (h1 : strippedInput raw ≠ "")
    (hbad : env.openFile (resolvePath wd (strippedInput raw)) = none
      ∨ ∃ lf fext, env.openFile (resolvePath wd (strippedInput raw)) = some lf
          ∧ get_file_extension (resolvePath wd (strippedInput raw)) = some fext
          ∧ toLowerStr fext ≠ "zlidar") :
    ∃ a, runBatch env wd outdir (pre ++ raw :: post) = .error a := by
  have hstep : ∃ a, workerStep env wd outdir raw pre.length = .error a := by
    rcases hbad with hopen | ⟨lf, fext, hopen, hext, hlow⟩
    · exact ⟨_, workerStep_open_none env wd outdir raw pre.length h1 hopen⟩
    · exact ⟨_, workerStep_ext_mismatch env wd outdir raw pre.length lf fext h1 hopen hext hlow⟩
  rcases hstep with ⟨a, ha⟩
  refine ⟨a, ?_⟩
  unfold runBatch
  rw [runWorkers_append_ok env wd outdir pre (raw :: post) 0 pm hpre]
  simp [runWorkers, ha, Except.map]

/-- Witness for C3: a readable file with extension txt aborts a batch that
still had another file queued behind it. -/
theorem fatalOpenOrExtensionAbortsRun_witness :
    ∃ a, runBatch envTxt "/d/" "" ([] ++ "a.txt" :: ["b.zlidar"]) = .error a :=
  fatalOpenOrExtensionAbortsRun envTxt "/d/" "" "a.txt" [] ["b.zlidar"] []
    (by decide) (by decide)
    (Or.inr ⟨⟨"a", 1⟩, "txt", by decide, by decide, by decide⟩)

/-- C4 counterexample: with working directory "/wd/" and stored path "",
the code emits the EmptyPath outcome for index 0 even though the resolved
path "/wd/" of the claim's description is not blank: the blank check is
performed on the quote-stripped stored path before any resolution, so the
claim's resolve-first ordering is wrong. -/
theorem emptyPathBeforeResolutionCounterexample :
    workerStep envNone "/wd/" "" "" 0 = .ok ⟨emptyMsg 0, none, []⟩
    ∧ resolvePath "/wd/" "" = "/wd/"
    ∧ ("/wd/" : String) ≠ "" := by
  refine ⟨by decide, by decide, by decide⟩

/-- C4 amended: the worker first strips double quotes from the stored
path; when the result is blank it emits EmptyPath for the index and
continues non-fatally with exactly one outcome, without resolving the
path; only a non-blank stripped path is resolved against the working
directory, and the open happens at the resolved path. -/
theorem emptyPathCheckThenResolve (env : Env) (wd outdir raw : String) (k : Nat) :
    (strippedInput raw = "" → workerStep env wd outdir raw k = .ok ⟨emptyMsg k, none, []⟩)
    ∧ (strippedInput raw ≠ "" →
        env.openFile (resolvePath wd (strippedInput raw)) = none →
        workerStep env wd outdir raw k =
          .error (.openFailure (resolvePath wd (strippedInput raw)))) :=
  ⟨workerStep_blank env wd outdir raw k, workerStep_open_none env wd outdir raw k⟩

/-- Witness for the amended C4 at concrete inputs: a stored path that is
two double quotes strips to blank and yields EmptyPath, and a non-blank
one is opened at its resolved path. -/
theorem emptyPathCheckThenResolve_witness :
    workerStep envNone "w/" "" "\"\"" 1 = .ok ⟨emptyMsg 1, none, []⟩
    ∧ workerStep envNone "/wd/" "" "x" 2 =
        .error (.openFailure (resolvePath "/wd/" (strippedInput "x"))) :=
  ⟨(emptyPathCheckThenResolve envNone "w/" "" "\"\"" 1).1 (by decide),
   (emptyPathCheckThenResolve envNone "/wd/" "" "x" 2).2 (by decide) (by decide)⟩

/-- C5 counterexample: the argument vector ["-v"] supplies no input-file
list, yet run does not return an invalid-input failure: parsing succeeds
with an empty input string, which splits into one blank token, and the
spawned workers process that token to an EmptyPath outcome. -/
theorem missingInputStillRunsCounterexample :
    parseArgs ["-v"] = .ok ("", "")
    ∧ parseArgs ["-v"] ≠ .error .invalidInput
    ∧ splitInputsList "" = [""]
    ∧ runBatch envNone "" "" (splitInputsList "") = .ok [⟨emptyMsg 0, none, []⟩] := by
  refine ⟨by decide, by decide, by decide, by decide⟩

/-- C5 amended: run rejects exactly the empty argument vector with the
structured invalid-input failure (before any conversion); every non-empty
argument vector, in particular one lacking an input-file list, is never
rejected as invalid input. -/
theorem invalidInputOnlyForNoArgs (args : List String) :
    parseArgs args = .error .invalidInput ↔ args = [] := by
  constructor
  · intro h
    by_contra hne
    have hlen : ¬ args.length = 0 := by
      intro h0
      exact hne (List.length_eq_zero.mp h0)
    unfold parseArgs at h
    rw [if_neg hlen] at h
    exact parseArgsLoop_ne_invalid args (List.range args.length) "" "" h
  · intro h
    subst h
    decide

/-- Witness for the amended C5 at the concrete non-empty argument vector
of the counterexample. -/
theorem invalidInputOnlyForNoArgs_witness :
    parseArgs ["-v"] = .error .invalidInput ↔ ["-v"] = ([] : List String) :=
  invalidInputOnlyForNoArgs ["-v"]

/-- C6: a target write failure is logged and swallowed: the worker still
returns an ok step whose channel message is the converted file's short
name, the failure appears only as a console log line, and no error is
returned for it. -/
theorem writeFailureSwallowed (env : Env) (wd outdir raw : String) (k : Nat)
    (lf : LasFileH) (fext e : String)
    (h1 : strippedInput raw ≠ "")
    (h2 : env.openFile (resolvePath wd (strippedInput raw)) = some lf)
    (h3 : get_file_extension (resolvePath wd (strippedInput raw)) = some fext)
    (h4 : toLowerStr fext = "zlidar")
    (h5 : env.write (outputPath outdir (resolvePath wd (strippedInput raw)) fext lf.shortName) = some e) :
    workerStep env wd outdir raw k =
      .ok ⟨lf.shortName,
           some (outputPath outdir (resolvePath wd (strippedInput raw)) fext lf.shortName),
           ["error while writing: " ++ e]⟩
    ∧ ∀ a, workerStep env wd outdir raw k ≠ .error a := by
  have h := workerStep_write_failure env wd outdir raw k lf fext e h1 h2 h3 h4 h5
  refine ⟨h, fun a hc => ?_⟩
  rw [h] at hc
  cases hc

/-- An environment holding one healthy zlidar file on a disk whose every
write fails. -/
def envWriteFail : Env :=
  ⟨fun p => if p = "/d/a.zlidar" then some ⟨"a", 2⟩ else none,
   fun _ => some "disk full"⟩

/-- Witness for C6: the failed write is only logged; the Converted message
is still sent. -/
theorem writeFailureSwallowed_witness :
    workerStep envWriteFail "/d/" "" "a.zlidar" 0 =
      .ok ⟨"a", some "/d/a.las", ["error while writing: " ++ "disk full"]⟩
    ∧ ∀ a, workerStep envWriteFail "/d/" "" "a.zlidar" 0 ≠ .error a :=
  writeFailureSwallowed envWriteFail "/d/" "" "a.zlidar" 0 ⟨"a", 2⟩ "zlidar" "disk full"
    (by decide) (by decide) (by decide) (by decide) (by decide)

/-- C7: the input-file argument splits on semicolons, falling back to
commas exactly when semicolon-splitting yields a single token, with each
token trimmed of surrounding whitespace; the claim's three examples split
as stated. -/
theorem inputSplittingSemicolonCommaFallback :
    (∀ s : String, (rustSplit s ";").length = 1 →
        splitInputsList s = (rustSplit s ",").map rustTrim)
    ∧ (∀ s : String, (rustSplit s ";").length ≠ 1 →
        splitInputsList s = (rustSplit s ";").map rustTrim)
    ∧ splitInputsList "a.zlidar,b.zlidar" = ["a.zlidar", "b.zlidar"]
    ∧ splitInputsList "a.zlidar;b.zlidar" = ["a.zlidar", "b.zlidar"]
    ∧ splitInputsList "a.zlidar" = ["a.zlidar"]
    ∧ splitInputsList " a.zlidar ; b.zlidar " = ["a.zlidar", "b.zlidar"] := by
  refine ⟨?_, ?_, by decide, by decide, by decide, by decide⟩
  · intro s h
    unfold splitInputsList
    dsimp only
    rw [if_pos (by rw [List.length_map]; exact h)]
  · intro s h
    unfold splitInputsList
    dsimp only
    rw [if_neg (by rw [List.length_map]; exact h)]

/-- Witness for C7 at a concrete comma-delimited input. -/
theorem inputSplittingSemicolonCommaFallback_witness :
    splitInputsList "a,b" = (rustSplit "a,b" ",").map rustTrim :=
  inputSplittingSemicolonCommaFallback.1 "a,b" (by decide)

/-- The target-path rule as the spec words it for the no-outdir case: the
source path with its extension replaced in place, only the trailing
"." ++ ext becoming ".las". Stated for comparison with outputPath. -/
def specOutputInPlace (input_file file_extension : String) : String :=
  if strEndsWith input_file ("." ++ file_extension) then
    (⟨input_file.data.take (input_file.data.length - (file_extension.data.length + 1))⟩ : String)
      ++ ".las"
  else input_file

/-- An environment holding a readable zlidar file whose base name itself
ends in ".zlidar". -/
def envDoubleExt : Env :=
  ⟨fun p => if p = "/w/a.zlidar.zlidar" then some ⟨"a.zlidar", 2⟩ else none,
   fun _ => none⟩

/-- C8 counterexample: for the converted file /w/a.zlidar.zlidar with no
output directory, the code's str::replace rewrites every occurrence of
".zlidar", producing /w/a.las.las, while the claim's in-place extension
replacement would yield /w/a.zlidar.las. -/
theorem outputPathReplaceAllCounterexample :
    workerStep envDoubleExt "" "" "/w/a.zlidar.zlidar" 0 =
      .ok ⟨"a.zlidar", some "/w/a.las.las", []⟩
    ∧ outputPath "" "/w/a.zlidar.zlidar" "zlidar" "a.zlidar" = "/w/a.las.las"
    ∧ specOutputInPlace "/w/a.zlidar.zlidar" "zlidar" = "/w/a.zlidar.las"
    ∧ ("/w/a.las.las" : String) ≠ "/w/a.zlidar.las" := by
  refine ⟨by decide, by decide, by decide, by decide⟩

/-- C8 amended: with an output directory the target is the directory
(trailing separator appended when missing) followed by the short base name
and ".las"; with no output directory the target is the source path with
every occurrence of "." ++ ext replaced by ".las", which agrees with
in-place extension replacement exactly when "." ++ ext occurs once, as in
the claim's two examples. -/
theorem outputPathConstruction (od input_file fext short : String) :
    (od ≠ "" → outputPath od input_file fext short = od ++ short ++ ".las")
    ∧ (strEndsWith od MAIN_SEPARATOR = false → od ≠ "" →
        normalizeOutdir od = od ++ MAIN_SEPARATOR)
    ∧ (strEndsWith od MAIN_SEPARATOR = true → normalizeOutdir od = od)
    ∧ outputPath "" "a.zlidar" "zlidar" "a" = "a.las"
    ∧ normalizeOutdir "/out" = "/out/"
    ∧ outputPath "/out/" "dir/b.zlidar" "zlidar" "b" = "/out/b.las"
    ∧ outputPath "" "/w/a.zlidar.zlidar" "zlidar" "a.zlidar" = "/w/a.las.las" := by
  refine ⟨?_, ?_, ?_, by decide, by decide, by decide, by decide⟩
  · intro h
    unfold outputPath
    rw [if_neg h]
  · intro h1 h2
    unfold normalizeOutdir
    rw [if_pos ⟨h2, h1⟩]
  · intro h
    unfold normalizeOutdir
    rw [if_neg (by simp [h])]

/-- Witness for the amended C8 at concrete directories. -/
theorem outputPathConstruction_witness :
    outputPath "/o/" "x.zlidar" "zlidar" "x" = "/o/" ++ "x" ++ ".las"
    ∧ normalizeOutdir "/o" = "/o" ++ MAIN_SEPARATOR
    ∧ normalizeOutdir "/o/" = "/o/" :=
  ⟨(outputPathConstruction "/o/" "x.zlidar" "zlidar" "x").1 (by decide),
   (outputPathConstruction "/o" "x" "y" "z").2.1 (by decide) (by decide),
   (outputPathConstruction "/o/" "x" "y" "z").2.2.1 (by decide)⟩

/-- An environment holding a healthy zlidar file whose short name contains
the word Empty. -/
def envEmptyLake : Env :=
  ⟨fun p => if p = "/d/EmptyLake.zlidar" then some ⟨"EmptyLake", 4⟩ else none,
   fun _ => none⟩

/-- C9 counterexample: in a two-file batch the Converted outcome for the
short name EmptyLake — produced by a successful conversion — is printed
bare rather than as "Completed conversion of EmptyLake": the aggregator
decides by the substring test contains("Empty") on the message string, so
the choice does not depend only on the outcome's tag and the batch size. -/
theorem aggregatorEmptySubstringCounterexample :
    workerStep envEmptyLake "" "" "/d/EmptyLake.zlidar" 0 =
      .ok ⟨"EmptyLake", some "/d/EmptyLake.las", []⟩
    ∧ aggregatorLine 2 "EmptyLake" = "EmptyLake"
    ∧ ("EmptyLake" : String) ≠ "Completed conversion of " ++ "EmptyLake" := by
  refine ⟨by decide, by decide, by decide⟩

/-- C9 amended: the aggregator prints a message bare when the batch has
exactly one file or when the message contains the substring "Empty"; so
EmptyPath diagnostics (which always contain "Empty") print unmodified, a
Converted name containing "Empty" also prints bare even in a multi-file
batch, and only messages without "Empty" in batches of more than one file
get the "Completed conversion of" form. -/
theorem aggregatorPrinting (n k : Nat) (name : String) :
    aggregatorLine n (emptyMsg k) = emptyMsg k
    ∧ (1 < n → strContains name "Empty" = false →
        aggregatorLine n name = "Completed conversion of " ++ name)
    ∧ aggregatorLine 1 name = name := by
  refine ⟨?_, ?_, ?_⟩
  · simp [aggregatorLine, strContains_emptyMsg k]
  · intro hn hc
    simp [aggregatorLine, hn, hc]
  · simp [aggregatorLine]

/-- Witness for the amended C9 at concrete messages. -/
theorem aggregatorPrinting_witness :
    aggregatorLine 2 (emptyMsg 0) = emptyMsg 0
    ∧ aggregatorLine 2 "b" = "Completed conversion of " ++ "b"
    ∧ aggregatorLine 1 "b" = "b" :=
  ⟨(aggregatorPrinting 2 0 "b").1,
   (aggregatorPrinting 2 0 "b").2.1 (by decide) (by decide),
   (aggregatorPrinting 1 0 "b").2.2⟩

/-- C10: a claimed non-blank input path that opens successfully but whose
final component has no file extension makes get_file_extension unwrap
none: the worker aborts the entire run with the unwrap panic — before the
extension-mismatch check (the abort is extUnwrap, not badExtension) and
before any outcome for that index is produced — and the remaining files
are not processed. -/
theorem missingExtensionUnwrapAborts (env : Env) (wd outdir raw : String) (k : Nat)
    (lf : LasFileH)
    (h1 : strippedInput raw ≠ "")
    (h2 : env.openFile (resolvePath wd (strippedInput raw)) = some lf)
    (h3 : get_file_extension (resolvePath wd (strippedInput raw)) = none) :
    workerStep env wd outdir raw k =
      .error (.extUnwrap (resolvePath wd (strippedInput raw)))
    ∧ ∀ post, runBatch env wd outdir (raw :: post) =
        .error (.extUnwrap (resolvePath wd (strippedInput raw))) := by
  refine ⟨workerStep_ext_none env wd outdir raw k lf h1 h2 h3, ?_⟩
  intro post
  have h0 := workerStep_ext_none env wd outdir raw 0 lf h1 h2 h3
  unfold runBatch
  simp [runWorkers, h0]

/-- An environment holding one readable file whose name has no dot. -/
def envNoExt : Env :=
  ⟨fun p => if p = "noext" then some ⟨"noext", 1⟩ else none, fun _ => none⟩

/-- Witness for C10: the extensionless readable path noext aborts its
batch before producing any outcome. -/
theorem missingExtensionUnwrapAborts_witness :
    workerStep envNoExt "" "" "noext" 0 = .error (.extUnwrap "noext")
    ∧ runBatch envNoExt "" "" ["noext", "b"] = .error (.extUnwrap "noext") :=
  ⟨(missingExtensionUnwrapAborts envNoExt "" "" "noext" 0 ⟨"noext", 1⟩
      (by decide) (by decide) (by decide)).1,
   (missingExtensionUnwrapAborts envNoExt "" "" "noext" 0 ⟨"noext", 1⟩
      (by decide) (by decide) (by decide)).2 ["b"]⟩

end ZlidarToLas
